import Mathlib

/-!
Verification of the spreadsheet-backed order-tracking store
(`src/backend/excel_store.py`) against its natural-language specification.

The Python module keeps two tables (`Records` and `Data`, the latter holding
salesman/region reference rows) inside one workbook.  Every operation is a
full-table read / in-memory edit / full-table write.  We embed the module
shallowly:

* a pandas cell is a `Value` (missing, text, numeric, or date);
* a sheet is a `List Row`, a row being an association list from column
  names to cells;
* a loadable workbook (`Store`) holds an optional raw sheet per table,
  `none` standing for a sheet `pd.read_excel` fails on (missing sheet) —
  the one failure `_read_df`'s try/except does catch; the document states
  the read path meets before that — a missing file (recreated empty by
  `_ensure_file_structure`) and an existing file `load_workbook` cannot
  open, on which `_ensure_file_structure`'s append-mode `pd.ExcelWriter`
  raises uncaught because it runs outside the try/except — are the `Disk`
  type of the C7 section, whose read functions return `Except`;
* Python floats are modelled as `ℚ` (`NaN` becomes `Option.none` through
  the permissive numeric coercion), datetimes as calendar dates `PDate`
  (sub-day precision is irrelevant to every property considered here), and
  pandas' permissive string parsers are modelled by ISO-date / decimal
  parsers — none of the proved properties depends on exactly which strings
  parse;
* pandas `groupby` aggregation keys are kept as a duplicate-free key list;
  the source orders group keys ascending, a row order no property here
  depends on.

Python-level names are kept where Lean allows (`list_records`,
`create_record`, `find_record`, `update_record`, `upsert_salesman`,
`bulk_set_salesmen`, `report_frames`); leading underscores of private
helpers are dropped (`_normalize_record_df` becomes `normalizeRecordRow`
applied row-wise, `_infer_region_for_salesman` becomes
`inferRegionForSalesman`, `_coerce_date` becomes `coerce_date`).
-/

namespace OrderTrack

/-! ## Python string primitives: `str.strip`, `str.lower` -/

/-- Whitespace characters removed by Python `str.strip()` (ASCII range). -/
def isPySpace (c : Char) : Bool :=
  c = ' ' || c = '\t' || c = '\n' || c = '\r' || c.toNat = 11 || c.toNat = 12

/-- Drop leading whitespace of a character list. -/
def stripLead (l : List Char) : List Char := l.dropWhile isPySpace

/-- Drop trailing whitespace of a character list. -/
def stripTrail (l : List Char) : List Char := (l.reverse.dropWhile isPySpace).reverse

/-- Python `s.strip()`. -/
def pyStrip (s : String) : String := ⟨stripTrail (stripLead s.data)⟩

/-- Python `s.lower()` (ASCII case folding suffices for the tables here). -/
def pyLower (s : String) : String := ⟨s.data.map Char.toLower⟩

theorem dropWhile_dropWhile (p : Char → Bool) (l : List Char) :
    List.dropWhile p (List.dropWhile p l) = List.dropWhile p l := by
  induction l with
  | nil => simp
  | cons x xs ih =>
    by_cases h : p x
    · simp [List.dropWhile_cons, h, ih]
    · simp [List.dropWhile_cons, h]

theorem dropWhile_sublist_suffix (p : Char → Bool) (l : List Char) :
    List.dropWhile p l <:+ l := by
  induction l with
  | nil => simp
  | cons x xs ih =>
    by_cases h : p x
    · simpa [List.dropWhile_cons, h] using ih.trans (List.suffix_cons x xs)
    · simp [List.dropWhile_cons, h]

theorem stripTrail_prefix (l : List Char) : stripTrail l <+: l := by
  have h := (dropWhile_sublist_suffix isPySpace l.reverse).reverse
  rw [List.reverse_reverse] at h
  exact h

theorem stripLead_stripLead (l : List Char) : stripLead (stripLead l) = stripLead l :=
  dropWhile_dropWhile isPySpace l

theorem stripTrail_stripTrail (l : List Char) : stripTrail (stripTrail l) = stripTrail l := by
  unfold stripTrail
  rw [List.reverse_reverse, dropWhile_dropWhile]

theorem head_not_space_of_stripLead_fixed {l : List Char} (h : stripLead l = l) :
    ∀ x xs, l = x :: xs → isPySpace x = false := by
  intro x xs hl
  subst hl
  by_contra hx
  have hx' : isPySpace x = true := by
    cases hpx : isPySpace x
    · exact absurd hpx hx
    · rfl
  unfold stripLead at h
  rw [List.dropWhile_cons, if_pos hx'] at h
  have hlen : (List.dropWhile isPySpace xs).length ≤ xs.length :=
    (dropWhile_sublist_suffix isPySpace xs).sublist.length_le
  rw [h] at hlen
  simp only [List.length_cons] at hlen
  omega

theorem stripLead_stripTrail_of_fixed {l : List Char} (h : stripLead l = l) :
    stripLead (stripTrail l) = stripTrail l := by
  cases hst : stripTrail l with
  | nil => simp [stripLead]
  | cons x xs =>
    have hpre : stripTrail l <+: l := stripTrail_prefix l
    rw [hst] at hpre
    obtain ⟨t, ht⟩ := hpre
    have hx : isPySpace x = false := by
      exact head_not_space_of_stripLead_fixed h x (xs ++ t) (by rw [← ht]; simp)
    simp [stripLead, List.dropWhile_cons, hx]

/-- Python `strip` is idempotent. -/
theorem pyStrip_idem (s : String) : pyStrip (pyStrip s) = pyStrip s := by
  unfold pyStrip
  have h1 : stripLead (stripLead s.data) = stripLead s.data := stripLead_stripLead s.data
  have h2 : stripLead (stripTrail (stripLead s.data)) = stripTrail (stripLead s.data) :=
    stripLead_stripTrail_of_fixed h1
  simp only [String.data]
  rw [h2, stripTrail_stripTrail]

/-! ## Cells, rows and permissive pandas coercions -/

/-- Calendar date (also standing in for a datetime; sub-day precision is
irrelevant to every property proved here). -/
structure PDate where
  year : Nat
  month : Nat
  day : Nat
deriving DecidableEq, Repr

/-- A cell of a pandas frame as it occurs in this workbook: missing
(`None`/`NaN`/`NaT`), text, numeric, or date. -/
inductive Value where
  | vNone : Value
  | vStr : String → Value
  | vNum : ℚ → Value
  | vDate : PDate → Value
deriving DecidableEq, Repr

/-- Parse a digit string. -/
def parseNatDigits (l : List Char) : Option Nat :=
  if l ≠ [] ∧ l.all Char.isDigit then
    some (l.foldl (fun a c => a * 10 + (c.toNat - 48)) 0)
  else none

/-- Split a character list on a separator character. -/
def splitOnChar (sep : Char) : List Char → List (List Char)
  | [] => [[]]
  | c :: r =>
    let rest := splitOnChar sep r
    if c = sep then [] :: rest
    else
      match rest with
      | [] => [[c]]
      | h :: t => (c :: h) :: t

/-- Parse an ISO `YYYY-MM-DD` date.  This models the permissive
`pd.to_datetime(..., errors="coerce")` string parser; no property proved
below depends on which strings parse, only on parse failures yielding a
missing value. -/
def parseDateStr (s : String) : Option PDate :=
  match splitOnChar '-' (pyStrip s).data with
  | [y, m, d] =>
    match parseNatDigits y, parseNatDigits m, parseNatDigits d with
    | some yn, some mn, some dn =>
      if 1 ≤ mn ∧ mn ≤ 12 ∧ 1 ≤ dn ∧ dn ≤ 31 then some ⟨yn, mn, dn⟩ else none
    | _, _, _ => none
  | _ => none

/-- Split a character list at the first decimal point. -/
def splitDot : List Char → List Char × Option (List Char)
  | [] => ([], none)
  | c :: r =>
    if c = '.' then ([], some r)
    else
      let (a, b) := splitDot r
      (c :: a, b)

/-- Parse a decimal numeral (optional sign, optional fraction part).  This
models the permissive `pd.to_numeric(..., errors="coerce")` string parser;
as with dates, only parse failure mattering as "missing" is relied on. -/
def parseRatStr (s : String) : Option ℚ :=
  let t := (pyStrip s).data
  let (sign, t) : ℚ × List Char :=
    match t with
    | '-' :: r => (-1, r)
    | '+' :: r => (1, r)
    | t => (1, t)
  match splitDot t with
  | (ip, none) => (parseNatDigits ip).map (fun n => sign * n)
  | (ip, some fp) =>
    if ip = [] ∧ fp = [] then none
    else
      match parseNatDigits (ip ++ fp), fp.length with
      | some n, k => some (sign * n / (10 : ℚ) ^ k)
      | none, _ =>
        match ip, parseNatDigits fp with
        | [], some _ => none
        | _, _ => none

/-- Coerce a cell to a date, `pd.to_datetime(column, errors="coerce")`:
dates pass through, parseable strings parse, everything else is missing. -/
def toDateVal : Value → Option PDate
  | .vNone => none
  | .vDate d => some d
  | .vStr s => parseDateStr s
  | .vNum _ => none

/-- Coerce a cell to a numeric, `pd.to_numeric(column, errors="coerce")`:
numbers pass through, parseable strings parse, everything else is missing. -/
def toNumVal : Value → Option ℚ
  | .vNone => none
  | .vNum q => some q
  | .vStr s => parseRatStr s
  | .vDate _ => none

/-- String rendering of a numeric cell (pandas `astype(str)`). -/
def ratToStr (q : ℚ) : String :=
  if q.den = 1 then toString q.num else toString q.num ++ "/" ++ toString q.den

/-- String rendering of a date cell (pandas `astype(str)`). -/
def dateToStr (d : PDate) : String :=
  toString d.year ++ "-" ++ toString d.month ++ "-" ++ toString d.day

/-- Coerce a cell to text, `column.fillna("").astype(str).str.strip()`. -/
def toTextVal : Value → String
  | .vNone => ""
  | .vStr s => pyStrip s
  | .vNum q => pyStrip (ratToStr q)
  | .vDate d => pyStrip (dateToStr d)

/-- Text coercion always yields a stripped string. -/
theorem pyStrip_toTextVal (v : Value) : pyStrip (toTextVal v) = toTextVal v := by
  cases v with
  | vNone => rfl
  | vStr s => exact pyStrip_idem s
  | vNum q => exact pyStrip_idem _
  | vDate d => exact pyStrip_idem _

/-! ## Rows, sheets, and the two normalized table shapes -/

/-- A raw sheet row: an association list from column headers to cells. -/
def Row : Type := List (String × Value)

instance : DecidableEq Row := inferInstanceAs (DecidableEq (List (String × Value)))

/-- Read a column off a raw row; a missing column is a missing cell
(`_normalize_record_df` adds absent columns with `None`). -/
def getCol (row : Row) (c : String) : Value :=
  match row.find? (fun p => p.1 == c) with
  | some p => p.2
  | none => .vNone

/-- Legacy record-sheet headers renamed to current headers
(`legacy_map` in `_normalize_record_df`). -/
def renameRecordCol (c : String) : String :=
  if c = "record_id" then "Record ID"
  else if c = "SalesMan" then "Sales Person"
  else if c = "Region" then "Sales Person Region"
  else if c = "SalesForce Reference" then "Salesforce Reference"
  else if c = "Defination" then "Definition"
  else if c = "created_at" then "Created At"
  else if c = "updated_at" then "Updated At"
  else c

/-- A normalized record of the `Records` table, fields in the canonical
column order of `RECORD_FIELD_ORDER`. -/
structure OrderRecord where
  dateOfRequest : Option PDate
  salesman : String
  region : String
  customerName : String
  customerPoNo : String
  salesforceReference : String
  soNo : String
  definition : String
  amountEur : Option ℚ
  totalDiscountPct : Option ℚ
  cpiEur : Option ℚ
  cpsEur : Option ℚ
  dateOfDelivery : Option PDate
  dateOfInvoice : Option PDate
  note : String
  recordId : String
  createdAt : Option PDate
  updatedAt : Option PDate
deriving DecidableEq, Repr

/-- Wrap an optional date back into a cell. -/
def optDate : Option PDate → Value
  | none => .vNone
  | some d => .vDate d

/-- Wrap an optional numeric back into a cell. -/
def optNum : Option ℚ → Value
  | none => .vNone
  | some q => .vNum q

theorem toDateVal_optDate (o : Option PDate) : toDateVal (optDate o) = o := by
  cases o <;> rfl

theorem toNumVal_optNum (o : Option ℚ) : toNumVal (optNum o) = o := by
  cases o <;> rfl

/-- Row-wise form of `_normalize_record_df`: rename legacy headers, add
missing columns as missing cells, reorder into the canonical column order,
and coerce each column to its type (dates and numerics permissively with
failures becoming missing, text trimmed and null-coerced to `""`). -/
def normalizeRecordRow (row0 : Row) : OrderRecord :=
  let row : Row := row0.map (fun p => (renameRecordCol p.1, p.2))
  { dateOfRequest := toDateVal (getCol row "Date of Request")
    salesman := toTextVal (getCol row "Sales Person")
    region := toTextVal (getCol row "Sales Person Region")
    customerName := toTextVal (getCol row "Customer Name")
    customerPoNo := toTextVal (getCol row "Customer PO No")
    salesforceReference := toTextVal (getCol row "Salesforce Reference")
    soNo := toTextVal (getCol row "SO No")
    definition := toTextVal (getCol row "Definition")
    amountEur := toNumVal (getCol row "Amount (EUR)")
    totalDiscountPct := toNumVal (getCol row "Total Discount (%)")
    cpiEur := toNumVal (getCol row "CPI (EUR)")
    cpsEur := toNumVal (getCol row "CPS (EUR)")
    dateOfDelivery := toDateVal (getCol row "Date of Delivery")
    dateOfInvoice := toDateVal (getCol row "Date of Invoice")
    note := toTextVal (getCol row "Note")
    recordId := toTextVal (getCol row "Record ID")
    createdAt := toDateVal (getCol row "Created At")
    updatedAt := toDateVal (getCol row "Updated At") }

/-- `_normalize_record_df` applied to a whole sheet. -/
def normalizeRecords (rows : List Row) : List OrderRecord :=
  rows.map normalizeRecordRow

/-- A normalized record rendered back as a raw row in canonical column
order, as `df.to_excel` lays it out. -/
def recToRow (r : OrderRecord) : Row :=
  [("Date of Request", optDate r.dateOfRequest),
   ("Sales Person", .vStr r.salesman),
   ("Sales Person Region", .vStr r.region),
   ("Customer Name", .vStr r.customerName),
   ("Customer PO No", .vStr r.customerPoNo),
   ("Salesforce Reference", .vStr r.salesforceReference),
   ("SO No", .vStr r.soNo),
   ("Definition", .vStr r.definition),
   ("Amount (EUR)", optNum r.amountEur),
   ("Total Discount (%)", optNum r.totalDiscountPct),
   ("CPI (EUR)", optNum r.cpiEur),
   ("CPS (EUR)", optNum r.cpsEur),
   ("Date of Delivery", optDate r.dateOfDelivery),
   ("Date of Invoice", optDate r.dateOfInvoice),
   ("Note", .vStr r.note),
   ("Record ID", .vStr r.recordId),
   ("Created At", optDate r.createdAt),
   ("Updated At", optDate r.updatedAt)]

/-- A normalized entry of the sales-reference (`Data`) sheet. -/
structure SalesEntry where
  name : String
  region : String
deriving DecidableEq, Repr

/-- Region column of the sales sheet:
`fillna("Unassigned").astype(str).str.strip()`. -/
def salesRegionText : Value → String
  | .vNone => pyStrip "Unassigned"
  | .vStr s => pyStrip s
  | .vNum q => pyStrip (ratToStr q)
  | .vDate d => pyStrip (dateToStr d)

theorem pyStrip_salesRegionText (v : Value) : pyStrip (salesRegionText v) = salesRegionText v := by
  cases v <;> exact pyStrip_idem _

/-- Row-wise form of `_normalize_sales_df`. -/
def normalizeSalesRow (row0 : Row) : SalesEntry :=
  let row : Row := row0.map (fun p => (if p.1 = "SalesMan" then "Sales Person" else p.1, p.2))
  { name := toTextVal (getCol row "Sales Person")
    region := salesRegionText (getCol row "Region") }

/-- `_normalize_sales_df` applied to a whole sheet. -/
def normalizeSales (rows : List Row) : List SalesEntry :=
  rows.map normalizeSalesRow

/-- A sales entry rendered back as a raw row. -/
def salesToRow (e : SalesEntry) : Row :=
  [("Sales Person", .vStr e.name), ("Region", .vStr e.region)]

/-! ## Round-trip facts about normalization -/

/-- Re-normalizing a rendered record only re-strips its text fields. -/
theorem normalizeRecordRow_recToRow (r : OrderRecord) :
    normalizeRecordRow (recToRow r) =
      { dateOfRequest := r.dateOfRequest
        salesman := pyStrip r.salesman
        region := pyStrip r.region
        customerName := pyStrip r.customerName
        customerPoNo := pyStrip r.customerPoNo
        salesforceReference := pyStrip r.salesforceReference
        soNo := pyStrip r.soNo
        definition := pyStrip r.definition
        amountEur := r.amountEur
        totalDiscountPct := r.totalDiscountPct
        cpiEur := r.cpiEur
        cpsEur := r.cpsEur
        dateOfDelivery := r.dateOfDelivery
        dateOfInvoice := r.dateOfInvoice
        note := pyStrip r.note
        recordId := pyStrip r.recordId
        createdAt := r.createdAt
        updatedAt := r.updatedAt } := by
  have h : normalizeRecordRow (recToRow r) =
      { dateOfRequest := toDateVal (optDate r.dateOfRequest)
        salesman := pyStrip r.salesman
        region := pyStrip r.region
        customerName := pyStrip r.customerName
        customerPoNo := pyStrip r.customerPoNo
        salesforceReference := pyStrip r.salesforceReference
        soNo := pyStrip r.soNo
        definition := pyStrip r.definition
        amountEur := toNumVal (optNum r.amountEur)
        totalDiscountPct := toNumVal (optNum r.totalDiscountPct)
        cpiEur := toNumVal (optNum r.cpiEur)
        cpsEur := toNumVal (optNum r.cpsEur)
        dateOfDelivery := toDateVal (optDate r.dateOfDelivery)
        dateOfInvoice := toDateVal (optDate r.dateOfInvoice)
        note := pyStrip r.note
        recordId := pyStrip r.recordId
        createdAt := toDateVal (optDate r.createdAt)
        updatedAt := toDateVal (optDate r.updatedAt) } := rfl
  rw [h]
  simp only [toDateVal_optDate, toNumVal_optNum]

/-- A record produced by normalization has all text fields stripped, so
re-stripping is the identity on it. -/
theorem normalizeRecordRow_strip_fixed (row : Row) :
    (let n := normalizeRecordRow row
     pyStrip n.salesman = n.salesman ∧ pyStrip n.region = n.region ∧
     pyStrip n.customerName = n.customerName ∧ pyStrip n.customerPoNo = n.customerPoNo ∧
     pyStrip n.salesforceReference = n.salesforceReference ∧ pyStrip n.soNo = n.soNo ∧
     pyStrip n.definition = n.definition ∧ pyStrip n.note = n.note ∧
     pyStrip n.recordId = n.recordId) :=
  ⟨pyStrip_toTextVal _, pyStrip_toTextVal _, pyStrip_toTextVal _, pyStrip_toTextVal _,
   pyStrip_toTextVal _, pyStrip_toTextVal _, pyStrip_toTextVal _, pyStrip_toTextVal _,
   pyStrip_toTextVal _⟩

/-- Row-level idempotence of record normalization. -/
theorem normalizeRecordRow_idem (row : Row) :
    normalizeRecordRow (recToRow (normalizeRecordRow row)) = normalizeRecordRow row := by
  obtain ⟨h1, h2, h3, h4, h5, h6, h7, h8, h9⟩ := normalizeRecordRow_strip_fixed row
  rw [normalizeRecordRow_recToRow, h1, h2, h3, h4, h5, h6, h7, h8, h9]

/-- Sheet-level idempotence of record normalization. -/
theorem normalizeRecords_idem (rows : List Row) :
    normalizeRecords ((normalizeRecords rows).map recToRow) = normalizeRecords rows := by
  unfold normalizeRecords
  rw [List.map_map, List.map_map]
  exact List.map_congr_left (fun row _ => normalizeRecordRow_idem row)

/-- Re-normalizing a rendered sales entry only re-strips its fields. -/
theorem normalizeSalesRow_salesToRow (e : SalesEntry) :
    normalizeSalesRow (salesToRow e) = { name := pyStrip e.name, region := pyStrip e.region } :=
  rfl

/-- An entry produced by sales normalization has both fields stripped. -/
theorem normalizeSalesRow_strip_fixed (row : Row) :
    pyStrip (normalizeSalesRow row).name = (normalizeSalesRow row).name ∧
    pyStrip (normalizeSalesRow row).region = (normalizeSalesRow row).region :=
  ⟨pyStrip_toTextVal _, pyStrip_salesRegionText _⟩

/-- Row-level idempotence of sales normalization. -/
theorem normalizeSalesRow_idem (row : Row) :
    normalizeSalesRow (salesToRow (normalizeSalesRow row)) = normalizeSalesRow row := by
  obtain ⟨h1, h2⟩ := normalizeSalesRow_strip_fixed row
  rw [normalizeSalesRow_salesToRow, h1, h2]

/-- Sheet-level idempotence of sales normalization. -/
theorem normalizeSales_idem (rows : List Row) :
    normalizeSales ((normalizeSales rows).map salesToRow) = normalizeSales rows := by
  unfold normalizeSales
  rw [List.map_map, List.map_map]
  exact List.map_congr_left (fun row _ => normalizeSalesRow_idem row)

/-! ## The workbook and its operations -/

/-- A loadable workbook: one optional raw sheet per table.  `none` models
a sheet `pd.read_excel` raises on (missing sheet) — the one failure
`_read_df`'s try/except catches and turns into an empty frame.  An
existing on-disk file that `load_workbook` cannot open at all is NOT a
`Store`: it is the `Disk.corrupt` state of the C7 section, on which
`_ensure_file_structure` (run before every read, outside the try/except)
raises and the error propagates. -/
structure Store where
  records : Option (List Row)
  sales : Option (List Row)
deriving DecidableEq

/-- Success branch of `_read_df(RECORDS_SHEET)` on a loadable workbook: a
missing/unreadable sheet degrades to the empty frame via the try/except.
(The corrupt-workbook failure this function cannot see is modelled by
`read_df_records` over `Disk`.) -/
def readRecordsSheet (st : Store) : List Row := st.records.getD []

/-- Success branch of `_read_df(DATA_SHEET)` on a loadable workbook; see
`readRecordsSheet`. -/
def readSalesSheet (st : Store) : List Row := st.sales.getD []

/-- `list_records()`: read the records sheet and normalize it (the
`df.empty` branch only installs the canonical headers, which the typed
result carries inherently). -/
def list_records (st : Store) : List OrderRecord :=
  normalizeRecords (readRecordsSheet st)

/-- `list_salesmen()`. -/
def list_salesmen (st : Store) : List SalesEntry :=
  normalizeSales (readSalesSheet st)

/-- `_write_df(RECORDS_SHEET, df)`: normalize, then replace the sheet
wholesale.  (The cosmetic `_apply_records_formatting` pass does not change
cell content and is not modelled.) -/
def writeRecords (rows : List Row) (st : Store) : Store :=
  { st with records := some ((normalizeRecords rows).map recToRow) }

/-- `_write_df(DATA_SHEET, df)`. -/
def writeSales (rows : List Row) (st : Store) : Store :=
  { st with sales := some ((normalizeSales rows).map salesToRow) }

/-- Reading back a written records sheet yields exactly its normalized
form (write normalizes, the read normalizes again, and normalization is
idempotent). -/
theorem list_records_writeRecords (rows : List Row) (st : Store) :
    list_records (writeRecords rows st) = normalizeRecords rows := by
  unfold list_records writeRecords readRecordsSheet
  simp only [Option.getD_some]
  exact normalizeRecords_idem rows

/-- Reading back a written sales sheet yields exactly its normalized form. -/
theorem list_salesmen_writeSales (rows : List Row) (st : Store) :
    list_salesmen (writeSales rows st) = normalizeSales rows := by
  unfold list_salesmen writeSales readSalesSheet
  simp only [Option.getD_some]
  exact normalizeSales_idem rows

/-- The in-memory frame edit of `upsert_salesman`: case-insensitive match
of the trimmed name against the current (normalized) table; on a hit the
region of every matching row is overwritten in place, otherwise a new row
with the stripped name is appended. -/
def upsertPure (name region : String) (df : List SalesEntry) : List SalesEntry :=
  let key := pyLower (pyStrip name)
  if df.any (fun e => pyLower e.name == key) then
    df.map (fun e => if pyLower e.name == key then { e with region := region } else e)
  else
    df ++ [{ name := pyStrip name, region := region }]

/-- `upsert_salesman(name, region)`: edit the current table in memory and
write it back (the write re-normalizes). -/
def upsert_salesman (name region : String) (st : Store) : Store :=
  writeSales ((upsertPure name region (list_salesmen st)).map salesToRow) st

/-- An item of a `bulk_set_salesmen` payload: `it["name"]` is mandatory,
`it.get("region", "Unassigned")` optional. -/
structure SalesItem where
  name : String
  region : Option String
deriving DecidableEq, Repr

/-- The frame rows `bulk_set_salesmen` builds from its items. -/
def itemsToEntries (items : List SalesItem) : List SalesEntry :=
  items.map (fun it => { name := it.name, region := it.region.getD "Unassigned" })

/-- `bulk_set_salesmen(items)`: build a fresh frame from the items and
replace the sheet wholesale. -/
def bulk_set_salesmen (items : List SalesItem) (st : Store) : Store :=
  writeSales ((itemsToEntries items).map salesToRow) st

/-- `_infer_region_for_salesman(salesman)`: first row of the normalized
sales table whose lowered name equals the lowered, stripped query;
`region or "Unassigned"` turns an empty matched region into
`"Unassigned"`; no match (or an empty table) is `"Unassigned"`. -/
def inferRegionForSalesman (salesman : String) (st : Store) : String :=
  let df := list_salesmen st
  if df.isEmpty then "Unassigned"
  else
    match df.find? (fun e => pyLower e.name == pyLower (pyStrip salesman)) with
    | some e => if e.region = "" then "Unassigned" else e.region
    | none => "Unassigned"

/-- `_coerce_date(value)`: `None`/`""`/`"nan"`/`"NaT"` are missing,
anything else goes through the permissive date parser. -/
def coerce_date (v : Value) : Option PDate :=
  match v with
  | .vNone => none
  | .vStr s => if s = "" || s = "nan" || s = "NaT" then none else parseDateStr s
  | .vDate d => some d
  | .vNum _ => none

/-- A create/update payload as the store sees it (`payload` dict built by
the API layer from a validated `Record` model).  `amount_eur` and
`total_discount_pct` are numbers — the properties below are scoped to
payloads whose numerics parse, exactly as the spec's claims are.
`cpi_eur` is carried by the payload but never read by the store. -/
structure Payload where
  date_of_request : Value
  salesman : String
  customer_name : String
  customer_po_no : String
  salesforce_reference : String
  so_no : String
  definition : String
  amount_eur : ℚ
  total_discount_pct : ℚ
  cpi_eur : Option ℚ
  cps_eur : Option ℚ
  date_of_delivery : Value
  date_of_invoice : Value
  note : String
deriving DecidableEq, Repr

/-- `float(payload.get("cps_eur", 0.0) or 0.0)`: a missing value defaults
to `0`, and Python's `or` additionally maps a falsy `0.0` to `0.0`. -/
def payloadCps (p : Payload) : ℚ :=
  match p.cps_eur with
  | none => 0
  | some q => if q = 0 then 0 else q

/-- `cpi = amount - cps if cps else amount` (Python float truthiness:
nonzero is truthy). -/
def computeCpi (amount cps : ℚ) : ℚ :=
  if cps ≠ 0 then amount - cps else amount

/-- `create_record(payload)`: freshly generated `record_id` and the clock
reading `now` are passed explicitly.  Returns the raw row dict the Python
function returns, together with the new store. -/
def create_record (p : Payload) (record_id : String) (now : PDate) (st : Store) :
    Row × Store :=
  let df := list_records st
  let amount := p.amount_eur
  let cps := payloadCps p
  let cpi := computeCpi amount cps
  let region := inferRegionForSalesman p.salesman st
  let row : Row :=
    [("Date of Request", optDate (coerce_date p.date_of_request)),
     ("Sales Person", .vStr p.salesman),
     ("Sales Person Region", .vStr region),
     ("Customer Name", .vStr p.customer_name),
     ("Customer PO No", .vStr p.customer_po_no),
     ("Salesforce Reference", .vStr p.salesforce_reference),
     ("SO No", .vStr p.so_no),
     ("Definition", .vStr p.definition),
     ("Amount (EUR)", .vNum amount),
     ("Total Discount (%)", .vNum p.total_discount_pct),
     ("CPI (EUR)", .vNum cpi),
     ("CPS (EUR)", .vNum cps),
     ("Date of Delivery", optDate (coerce_date p.date_of_delivery)),
     ("Date of Invoice", optDate (coerce_date p.date_of_invoice)),
     ("Note", .vStr p.note),
     ("Record ID", .vStr record_id),
     ("Created At", .vDate now),
     ("Updated At", .vDate now)]
  (row, writeRecords (df.map recToRow ++ [row]) st)

/-- Truthiness of an optional Python string (`if so_no:`): `None` and
`""` are falsy, every other string — whitespace-only included — truthy. -/
def pyTruthyStr : Option String → Bool
  | none => false
  | some s => !(s == "")

/-- `find_record(so_no, customer_po_no)`: an empty table is a miss; a
truthy `so_no` filters on the lowered SO column, else a truthy
`customer_po_no` filters on the lowered PO column, else nothing matches;
the first filtered row (or a miss) is returned. -/
def find_record (so_no customer_po_no : Option String) (st : Store) :
    Option OrderRecord :=
  let df := list_records st
  if df.isEmpty then none
  else
    let result : List OrderRecord :=
      if pyTruthyStr so_no then
        df.filter (fun r => pyLower r.soNo == pyLower (pyStrip (so_no.getD "")))
      else if pyTruthyStr customer_po_no then
        df.filter (fun r => pyLower r.customerPoNo == pyLower (pyStrip (customer_po_no.getD "")))
      else []
    result.head?

/-- The in-place row mutation `df.loc[mask, ...] = ...` of
`update_record`, applied to one matching record: every business field is
overwritten from the payload, `cpi`/`cps`/`region` from the recomputed
values, `updated_at` is restamped; `record_id` and `created_at` are not
assigned. -/
def applyUpdate (p : Payload) (region : String) (cpi cps : ℚ) (now : PDate)
    (r : OrderRecord) : OrderRecord :=
  { r with
    dateOfRequest := coerce_date p.date_of_request
    salesman := p.salesman
    region := region
    customerName := p.customer_name
    customerPoNo := p.customer_po_no
    salesforceReference := p.salesforce_reference
    soNo := p.so_no
    definition := p.definition
    amountEur := some p.amount_eur
    totalDiscountPct := some p.total_discount_pct
    cpiEur := some cpi
    cpsEur := some cps
    dateOfDelivery := coerce_date p.date_of_delivery
    dateOfInvoice := coerce_date p.date_of_invoice
    note := p.note
    updatedAt := some now }

/-- `update_record(record_id, payload)`: an empty table or an unmatched
`record_id` is a miss with no write; otherwise every row whose id equals
`record_id` is mutated in place, the table is written back, and the first
matching (now updated) row is returned. -/
def update_record (record_id : String) (p : Payload) (now : PDate) (st : Store) :
    Option OrderRecord × Store :=
  let df := list_records st
  if df.isEmpty then (none, st)
  else if !(df.any (fun r => r.recordId == record_id)) then (none, st)
  else
    let amount := p.amount_eur
    let cps := payloadCps p
    let cpi := computeCpi amount cps
    let region := inferRegionForSalesman p.salesman st
    let df' := df.map (fun r =>
      if r.recordId == record_id then applyUpdate p region cpi cps now r else r)
    ((df'.filter (fun r => r.recordId == record_id)).head?,
     writeRecords (df'.map recToRow) st)

/-! ## Reports -/

/-- A summary frame: column headers plus data rows. -/
structure Frame where
  cols : List String
  rows : List (List Value)
deriving DecidableEq

/-- The four summary frames returned by `report_frames()`. -/
structure ReportFrames where
  by_region : Frame
  or_by_year : Frame
  oi_by_year : Frame
  cpi_vs_cps : Frame
deriving DecidableEq

/-- `pd.to_numeric(col, errors="coerce").fillna(0.0)` applied rowwise in
`report_frames`: a missing numeric counts as `0`. -/
def numOr0 (q : Option ℚ) : ℚ := q.getD 0

/-- Per-record `cpi + cps` after the zero-fill. -/
def recCpiCps (r : OrderRecord) : ℚ := numOr0 r.cpiEur + numOr0 r.cpsEur

/-- Calendar year of the invoice date (`Year_OI`), missing when the date
is missing. -/
def invoiceYear (r : OrderRecord) : Option Nat := r.dateOfInvoice.map (·.year)

/-- Calendar year of the request date (`Year_OR`). -/
def requestYear (r : OrderRecord) : Option Nat := r.dateOfRequest.map (·.year)

/-- `by_region` groups: one group per distinct region, with the zero-filled
sums of amount, cpi and cps.  Group keys are kept duplicate-free; pandas
additionally sorts them, an ordering nothing here depends on. -/
def regionGroups (recs : List OrderRecord) : List (String × ℚ × ℚ × ℚ) :=
  ((recs.map (·.region)).dedup).map (fun g =>
    let grp := recs.filter (fun r => r.region == g)
    (g, ((grp.map (fun r => numOr0 r.amountEur)).sum,
         (grp.map (fun r => numOr0 r.cpiEur)).sum,
         (grp.map (fun r => numOr0 r.cpsEur)).sum)))

/-- `or_by_year` groups: records without a parseable request date carry a
missing group key and are dropped by the group-by (the `dropna` in the
source is then redundant); per year, the zero-filled amounts are summed. -/
def orGroups (recs : List OrderRecord) : List (Nat × ℚ) :=
  ((recs.filterMap requestYear).dedup).map (fun y =>
    (y, ((recs.filter (fun r => requestYear r == some y)).map (fun r => numOr0 r.amountEur)).sum))

/-- `oi_by_year` groups: restrict to rows whose invoice date is present,
group by invoice year, and sum `cpi + cps` per group. -/
def oiGroups (recs : List OrderRecord) : List (Nat × ℚ) :=
  let invoiced := recs.filter (fun r => r.dateOfInvoice.isSome)
  ((invoiced.filterMap invoiceYear).dedup).map (fun y =>
    (y, ((invoiced.filter (fun r => invoiceYear r == some y)).map recCpiCps).sum))

/-- `report_frames()`: on an empty table, four empty frames carrying the
exact header lists the source constructs (note the empty `by_region` frame
reuses the record-sheet header `"Sales Person Region"` while the grouped
frame renames it to `"Region"`); otherwise the four aggregations. -/
def report_frames (st : Store) : ReportFrames :=
  let df := list_records st
  if df.isEmpty then
    { by_region := ⟨["Sales Person Region", "Amount (EUR)", "CPI (EUR)", "CPS (EUR)"], []⟩
      or_by_year := ⟨["Year", "OR (EUR)"], []⟩
      oi_by_year := ⟨["Year", "OI (EUR)"], []⟩
      cpi_vs_cps := ⟨["Metric", "EUR"], []⟩ }
  else
    { by_region := ⟨["Region", "Amount (EUR)", "CPI (EUR)", "CPS (EUR)"],
        (regionGroups df).map (fun x => [.vStr x.1, .vNum x.2.1, .vNum x.2.2.1, .vNum x.2.2.2])⟩
      or_by_year := ⟨["Year", "OR (EUR)"],
        (orGroups df).map (fun x => [.vNum (x.1 : ℚ), .vNum x.2])⟩
      oi_by_year := ⟨["Year", "OI (EUR)"],
        (oiGroups df).map (fun x => [.vNum (x.1 : ℚ), .vNum x.2])⟩
      cpi_vs_cps := ⟨["Metric", "EUR"],
        [[.vStr "CPI (EUR)", .vNum ((df.map (fun r => numOr0 r.cpiEur)).sum)],
         [.vStr "CPS (EUR)", .vNum ((df.map (fun r => numOr0 r.cpsEur)).sum)]]⟩ }

/-! ## General helper lemmas -/

theorem mem_of_head?_eq_some {α : Type} {l : List α} {a : α} (h : l.head? = some a) :
    a ∈ l :=
  List.mem_of_mem_head? (by simp [h])

theorem head?_filter_spec {α : Type} {p : α → Bool} {l : List α} {a : α}
    (h : (l.filter p).head? = some a) : a ∈ l ∧ p a = true :=
  List.mem_filter.mp (mem_of_head?_eq_some h)

/-- The first hit of a filter splits the list: everything before it fails
the predicate. -/
theorem head?_filter_first {α : Type} {p : α → Bool} {l : List α} {a : α}
    (h : (l.filter p).head? = some a) :
    ∃ l1 l2, l = l1 ++ a :: l2 ∧ p a = true ∧ ∀ x ∈ l1, p x = false := by
  induction l with
  | nil => simp at h
  | cons x xs ih =>
    by_cases hx : p x
    · rw [List.filter_cons_of_pos hx] at h
      simp only [List.head?_cons, Option.some.injEq] at h
      subst h
      exact ⟨[], xs, by simp, hx, by simp⟩
    · rw [List.filter_cons_of_neg hx] at h
      obtain ⟨l1, l2, hsplit, hpa, hfail⟩ := ih h
      refine ⟨x :: l1, l2, by simp [hsplit], hpa, ?_⟩
      intro y hy
      rcases List.mem_cons.mp hy with rfl | hy'
      · simpa using hx
      · exact hfail y hy'

/-- Every record returned by `list_records` survives a render/normalize
round trip unchanged (it is itself the result of a normalization). -/
theorem mem_list_records_roundtrip {st : Store} {r : OrderRecord}
    (h : r ∈ list_records st) : normalizeRecordRow (recToRow r) = r := by
  obtain ⟨raw, _, hr⟩ := List.mem_map.mp (by simpa [list_records, normalizeRecords] using h)
  rw [← hr]
  exact normalizeRecordRow_idem raw

/-- The record id of a normalized record is stripped. -/
theorem mem_list_records_strip_id {st : Store} {r : OrderRecord}
    (h : r ∈ list_records st) : pyStrip r.recordId = r.recordId := by
  obtain ⟨raw, _, hr⟩ := List.mem_map.mp (by simpa [list_records, normalizeRecords] using h)
  rw [← hr]
  exact pyStrip_toTextVal _

theorem normalizeRecords_append (a b : List Row) :
    normalizeRecords (a ++ b) = normalizeRecords a ++ normalizeRecords b :=
  List.map_append _ a b

/-- The records table after `create_record` is the old table with the
normalized new row appended. -/
theorem list_records_create (p : Payload) (rid : String) (now : PDate) (st : Store) :
    list_records (create_record p rid now st).2
      = list_records st ++ [normalizeRecordRow (create_record p rid now st).1] := by
  have h2 : (create_record p rid now st).2
      = writeRecords ((list_records st).map recToRow ++ [(create_record p rid now st).1]) st := rfl
  rw [h2, list_records_writeRecords, normalizeRecords_append]
  congr 1
  exact normalizeRecords_idem (readRecordsSheet st)

/-! ## Claim C1 -/

/-- C1: for every create and update payload (amount and cps being parsed
numbers), the stored record's cpi equals `amount - cps` when `cps ≠ 0`
and `amount` when `cps = 0`; the service computes cpi on every create and
update, and the `cpi_eur` value carried by the payload is ignored. -/
theorem c1_cpi_server_computed (p : Payload) (rid : String) (now : PDate) (st : Store) :
    getCol (create_record p rid now st).1 "CPI (EUR)"
        = .vNum (if payloadCps p = 0 then p.amount_eur else p.amount_eur - payloadCps p) ∧
    (list_records (create_record p rid now st).2).map (fun r => r.cpiEur)
        = (list_records st).map (fun r => r.cpiEur)
          ++ [some (if payloadCps p = 0 then p.amount_eur else p.amount_eur - payloadCps p)] ∧
    (∀ rec, (update_record rid p now st).1 = some rec →
        rec.cpiEur = some (if payloadCps p = 0 then p.amount_eur else p.amount_eur - payloadCps p)) ∧
    (∀ r ∈ list_records (update_record rid p now st).2, r.recordId = rid →
        r.cpiEur = some (if payloadCps p = 0 then p.amount_eur else p.amount_eur - payloadCps p)) ∧
    (∀ c : Option ℚ,
        create_record { p with cpi_eur := c } rid now st = create_record p rid now st ∧
        update_record rid { p with cpi_eur := c } now st = update_record rid p now st) := by
  have hcpi : computeCpi p.amount_eur (payloadCps p)
      = (if payloadCps p = 0 then p.amount_eur else p.amount_eur - payloadCps p) := by
    unfold computeCpi
    by_cases h : payloadCps p = 0 <;> simp [h]
  refine ⟨?_, ?_, ?_, ?_, fun c => ⟨rfl, rfl⟩⟩
  · rw [← hcpi]; rfl
  · rw [list_records_create, List.map_append]
    simp only [List.map_cons, List.map_nil]
    rw [← hcpi]
    rfl
  · intro rec h
    by_cases hE : (list_records st).isEmpty
    · simp [update_record, hE] at h
    · by_cases hA : (list_records st).any (fun r => r.recordId == rid)
      · simp only [update_record, if_neg hE, hA, Bool.not_true, Bool.false_eq_true,
          if_false] at h
        obtain ⟨hmem, hpred⟩ := head?_filter_spec h
        obtain ⟨r0, hr0, hr0eq⟩ := List.mem_map.mp hmem
        by_cases hid : r0.recordId == rid
        · rw [if_pos hid] at hr0eq
          rw [← hr0eq, ← hcpi]
          rfl
        · rw [if_neg hid] at hr0eq
          rw [← hr0eq] at hpred
          exact absurd hpred (by simpa using hid)
      · simp [update_record, hE, hA] at h
  · intro r hr hrid
    by_cases hE : (list_records st).isEmpty
    · rw [List.isEmpty_iff] at hE
      simp only [update_record, hE] at hr
      simp [hE] at hr
    · by_cases hA : (list_records st).any (fun r => r.recordId == rid)
      · simp only [update_record, if_neg hE, hA, Bool.not_true, Bool.false_eq_true,
          if_false] at hr
        rw [list_records_writeRecords] at hr
        unfold normalizeRecords at hr
        rw [List.map_map] at hr
        obtain ⟨r0, hr0, hr0eq⟩ := List.mem_map.mp hr
        obtain ⟨r1, hr1, hr1eq⟩ := List.mem_map.mp hr0
        by_cases hid : r1.recordId == rid
        · rw [if_pos hid] at hr1eq
          rw [← hr0eq, ← hr1eq]
          simp only [Function.comp_apply]
          rw [normalizeRecordRow_recToRow, ← hcpi]
          rfl
        · rw [if_neg hid] at hr1eq
          exfalso
          have hfix : pyStrip r1.recordId = r1.recordId := mem_list_records_strip_id hr1
          have : r.recordId = r1.recordId := by
            rw [← hr0eq, ← hr1eq]
            simpa [Function.comp_apply, normalizeRecordRow_recToRow] using hfix
          rw [this] at hrid
          exact absurd hrid (by simpa using hid)
      · simp only [Bool.not_eq_true] at hA
        simp only [update_record, if_neg hE, hA, Bool.not_false, if_true] at hr
        rw [List.any_eq_false] at hA
        exact absurd hrid (by simpa using hA r hr)

/-- Witness for C1 at a concrete payload (amount 1000, cps 200) on the
empty store: the computed cpi is 800. -/
theorem c1_cpi_server_computed_witness :
    getCol
        (create_record
          ⟨.vStr "2024-01-02", "Alice", "ACME", "PO-1", "SF-1", "SO-1", "", 1000, 10,
            some 55, some 200, .vNone, .vNone, ""⟩
          "rid-00" ⟨2024, 1, 2⟩ ⟨some [], some []⟩).1 "CPI (EUR)"
      = .vNum 800 := by
  have h := (c1_cpi_server_computed
    ⟨.vStr "2024-01-02", "Alice", "ACME", "PO-1", "SF-1", "SO-1", "", 1000, 10,
      some 55, some 200, .vNone, .vNone, ""⟩
    "rid-00" ⟨2024, 1, 2⟩ ⟨some [], some []⟩).1
  rw [h]
  norm_num [payloadCps]

/-! ## Claim C3 -/

/-- C3: updating a record id that is not present in the table returns the
not-found signal `none` (no exception — the function is total) and writes
nothing: the store, its Records sheet included, is returned unchanged. -/
theorem c3_update_missing_id_no_write (rid : String) (p : Payload) (now : PDate) (st : Store)
    (h : ∀ r ∈ list_records st, r.recordId ≠ rid) :
    update_record rid p now st = (none, st) := by
  have hA : (list_records st).any (fun r => r.recordId == rid) = false := by
    rw [List.any_eq_false]
    intro r hr
    simpa using h r hr
  by_cases hE : (list_records st).isEmpty <;> simp [update_record, hE, hA]

/-- Witness for C3: updating the empty store under id `"missing"`. -/
theorem c3_update_missing_id_no_write_witness :
    update_record "missing"
        ⟨.vNone, "Bob", "ACME", "PO-9", "SF-9", "SO-9", "", 5, 0, none, none, .vNone, .vNone, ""⟩
        ⟨2024, 6, 1⟩ ⟨none, none⟩
      = (none, ⟨none, none⟩) :=
  c3_update_missing_id_no_write _ _ _ _ (by intro r hr; simp [list_records, readRecordsSheet,
    normalizeRecords] at hr)

/-! ## Claim C6 -/

/-- C6: record-row normalization is idempotent (normalizing an
already-normalized row set returns it unchanged), and writing a row set to
the Records table then reading the table back yields exactly the
normalized form of the input. -/
theorem c6_normalization_roundtrip (rows : List Row) (st : Store) :
    normalizeRecords ((normalizeRecords rows).map recToRow) = normalizeRecords rows ∧
    list_records (writeRecords rows st) = normalizeRecords rows :=
  ⟨normalizeRecords_idem rows, list_records_writeRecords rows st⟩

/-! ## Claim C7 -/

/-- The on-disk document as the read path first sees it: `missing` (no
file — `_ensure_file_structure` creates one with empty tables and the
read proceeds), `corrupt` (an existing file `load_workbook` cannot open —
`_ensure_file_structure`'s append-mode `pd.ExcelWriter` raises, and since
that call sits OUTSIDE `_read_df`'s try/except nothing catches it), or
`readable` (a loadable workbook, possibly with missing sheets). -/
inductive Disk where
  | missing : Disk
  | corrupt : Disk
  | readable : Store → Disk

/-- Full `_read_df(RECORDS_SHEET)` including its uncaught error path: a
corrupt workbook raises before the try/except is ever entered; a missing
document is recreated empty and reads as no rows; on a loadable workbook
a missing/unreadable sheet degrades to the empty frame. -/
def read_df_records : Disk → Except Unit (List Row)
  | .corrupt => .error ()
  | .missing => .ok []
  | .readable st => .ok (readRecordsSheet st)

/-- Full `_read_df(DATA_SHEET)` including its uncaught error path. -/
def read_df_sales : Disk → Except Unit (List Row)
  | .corrupt => .error ()
  | .missing => .ok []
  | .readable st => .ok (readSalesSheet st)

/-- `list_records()` over the full disk model: normalization applies to a
successful read; the corrupt-workbook error propagates. -/
def list_records_disk (d : Disk) : Except Unit (List OrderRecord) :=
  (read_df_records d).map normalizeRecords

/-- `list_salesmen()` over the full disk model. -/
def list_salesmen_disk (d : Disk) : Except Unit (List SalesEntry) :=
  (read_df_sales d).map normalizeSales

/-- Counterexample to C7 as stated: a read of an existing workbook that
cannot be loaded does not return an empty row set — the structure-ensure
pass that runs before `_read_df`'s try/except raises, and the list
operations propagate the error. -/
theorem c7_counterexample :
    list_records_disk Disk.corrupt = .error () ∧
    list_records_disk Disk.corrupt ≠ .ok [] ∧
    list_salesmen_disk Disk.corrupt = .error () ∧
    list_salesmen_disk Disk.corrupt ≠ .ok [] :=
  ⟨rfl, fun h => Except.noConfusion h, rfl, fun h => Except.noConfusion h⟩

/-- C7 amended: reads degrade to the empty row set when the document is
missing (it is recreated with empty tables) or when a loadable workbook's
sheet is missing or unreadable — the list operations then return the
empty normalized table; but on an existing workbook that cannot be loaded
at all, the pre-read structure-ensure step raises and the list operations
propagate the error to the caller.  The loadable branch is exactly the
`Store`-level read the other claims are stated over. -/
theorem c7_reads_degrade_except_corrupt (st : Store) :
    (list_records_disk (Disk.readable st) = .ok (list_records st)) ∧
    (list_salesmen_disk (Disk.readable st) = .ok (list_salesmen st)) ∧
    (st.records = none → list_records_disk (Disk.readable st) = .ok []) ∧
    (st.sales = none → list_salesmen_disk (Disk.readable st) = .ok []) ∧
    list_records_disk Disk.missing = .ok [] ∧
    list_salesmen_disk Disk.missing = .ok [] ∧
    list_records_disk Disk.corrupt = .error () ∧
    list_salesmen_disk Disk.corrupt = .error () := by
  refine ⟨rfl, rfl, ?_, ?_, rfl, rfl, rfl, rfl⟩
  · intro h
    simp [list_records_disk, read_df_records, list_records, readRecordsSheet, h,
      normalizeRecords, Except.map]
  · intro h
    simp [list_salesmen_disk, read_df_sales, list_salesmen, readSalesSheet, h,
      normalizeSales, Except.map]

/-- Witness for C7 amended at the workbook with both sheets unreadable. -/
theorem c7_reads_degrade_except_corrupt_witness :
    list_records_disk (Disk.readable ⟨none, none⟩) = .ok [] ∧
    list_salesmen_disk (Disk.readable ⟨none, none⟩) = .ok [] :=
  ⟨(c7_reads_degrade_except_corrupt ⟨none, none⟩).2.2.1 rfl,
   (c7_reads_degrade_except_corrupt ⟨none, none⟩).2.2.2.1 rfl⟩

/-! ## Claim C8 -/

/-- C8: on an empty Records table, `report_frames` returns all four views
as empty row sequences still carrying their column headers (the empty
`by_region` frame uses the record-sheet header `"Sales Person Region"`),
and does so totally. -/
theorem c8_empty_reports (st : Store) (h : list_records st = []) :
    report_frames st =
      ⟨⟨["Sales Person Region", "Amount (EUR)", "CPI (EUR)", "CPS (EUR)"], []⟩,
       ⟨["Year", "OR (EUR)"], []⟩,
       ⟨["Year", "OI (EUR)"], []⟩,
       ⟨["Metric", "EUR"], []⟩⟩ := by
  simp [report_frames, h]

/-- Witness for C8 at the empty store. -/
theorem c8_empty_reports_witness :
    report_frames ⟨some [], some []⟩ =
      ⟨⟨["Sales Person Region", "Amount (EUR)", "CPI (EUR)", "CPS (EUR)"], []⟩,
       ⟨["Year", "OR (EUR)"], []⟩,
       ⟨["Year", "OI (EUR)"], []⟩,
       ⟨["Metric", "EUR"], []⟩⟩ :=
  c8_empty_reports ⟨some [], some []⟩ (by simp [list_records, readRecordsSheet, normalizeRecords])

/-! ## Claim C2 -/

/-- A sales entry read from the table has both fields stripped. -/
theorem mem_list_salesmen_strip {st : Store} {e : SalesEntry} (h : e ∈ list_salesmen st) :
    pyStrip e.name = e.name ∧ pyStrip e.region = e.region := by
  obtain ⟨raw, _, hr⟩ := List.mem_map.mp (by simpa [list_salesmen, normalizeSales] using h)
  rw [← hr]
  exact normalizeSalesRow_strip_fixed raw

/-- The inferred region is already stripped (it is `"Unassigned"` or a
region read from the normalized sales table). -/
theorem pyStrip_inferRegion (s : String) (st : Store) :
    pyStrip (inferRegionForSalesman s st) = inferRegionForSalesman s st := by
  unfold inferRegionForSalesman
  by_cases hE : (list_salesmen st).isEmpty
  · simp only [hE, if_true]
    rfl
  · simp only [hE, Bool.false_eq_true, if_false]
    cases hf : (list_salesmen st).find? (fun e => pyLower e.name == pyLower (pyStrip s)) with
    | none => rfl
    | some e =>
      by_cases hr : e.region = ""
      · simp [hr]
        rfl
      · simp only [hr, if_neg hr]
        exact (mem_list_salesmen_strip (List.mem_of_find?_eq_some hf)).2

/-- C2: every create and update stores, as the record's region, the region
of the entry of the current sales-reference table whose name matches the
payload's salesman under case-insensitive comparison of the trimmed names
(the stored names are trimmed by normalization, the query is trimmed
before lowering); an empty matched region and an unmatched salesman both
yield `"Unassigned"`.  The hypothesis `hnd` states that the table holds at
most one entry per case-insensitive name, which is what lets the claim
speak of "the" matching entry. -/
theorem c2_region_lookup (p : Payload) (rid : String) (now : PDate) (st : Store)
    (hnd : ((list_salesmen st).map (fun e => pyLower e.name)).Nodup) :
    ((list_records (create_record p rid now st).2).map (fun r => r.region)
        = (list_records st).map (fun r => r.region) ++ [inferRegionForSalesman p.salesman st]) ∧
    (∀ rec, (update_record rid p now st).1 = some rec →
        rec.region = inferRegionForSalesman p.salesman st) ∧
    (∀ r ∈ list_records (update_record rid p now st).2, r.recordId = rid →
        r.region = inferRegionForSalesman p.salesman st) ∧
    (∀ e ∈ list_salesmen st, pyLower e.name = pyLower (pyStrip p.salesman) →
        inferRegionForSalesman p.salesman st = (if e.region = "" then "Unassigned" else e.region)) ∧
    ((∀ e ∈ list_salesmen st, pyLower e.name ≠ pyLower (pyStrip p.salesman)) →
        inferRegionForSalesman p.salesman st = "Unassigned") := by
  refine ⟨?_, ?_, ?_, ?_, ?_⟩
  · rw [list_records_create, List.map_append]
    simp only [List.map_cons, List.map_nil]
    congr 1
    show pyStrip (inferRegionForSalesman p.salesman st) :: [] = _
    rw [pyStrip_inferRegion]
  · intro rec h
    by_cases hE : (list_records st).isEmpty
    · simp [update_record, hE] at h
    · by_cases hA : (list_records st).any (fun r => r.recordId == rid)
      · simp only [update_record, if_neg hE, hA, Bool.not_true, Bool.false_eq_true,
          if_false] at h
        obtain ⟨hmem, hpred⟩ := head?_filter_spec h
        obtain ⟨r0, hr0, hr0eq⟩ := List.mem_map.mp hmem
        by_cases hid : r0.recordId == rid
        · rw [if_pos hid] at hr0eq
          rw [← hr0eq]
          rfl
        · rw [if_neg hid] at hr0eq
          rw [← hr0eq] at hpred
          exact absurd hpred (by simpa using hid)
      · simp [update_record, hE, hA] at h
  · intro r hr hrid
    by_cases hE : (list_records st).isEmpty
    · rw [List.isEmpty_iff] at hE
      simp only [update_record, hE] at hr
      simp [hE] at hr
    · by_cases hA : (list_records st).any (fun r => r.recordId == rid)
      · simp only [update_record, if_neg hE, hA, Bool.not_true, Bool.false_eq_true,
          if_false] at hr
        rw [list_records_writeRecords] at hr
        unfold normalizeRecords at hr
        rw [List.map_map] at hr
        obtain ⟨r0, hr0, hr0eq⟩ := List.mem_map.mp hr
        obtain ⟨r1, hr1, hr1eq⟩ := List.mem_map.mp hr0
        by_cases hid : r1.recordId == rid
        · rw [if_pos hid] at hr1eq
          rw [← hr0eq, ← hr1eq]
          simp only [Function.comp_apply]
          rw [normalizeRecordRow_recToRow]
          exact pyStrip_inferRegion p.salesman st
        · rw [if_neg hid] at hr1eq
          exfalso
          have hfix : pyStrip r1.recordId = r1.recordId := mem_list_records_strip_id hr1
          have : r.recordId = r1.recordId := by
            rw [← hr0eq, ← hr1eq]
            simpa [Function.comp_apply, normalizeRecordRow_recToRow] using hfix
          rw [this] at hrid
          exact absurd hrid (by simpa using hid)
      · simp only [Bool.not_eq_true] at hA
        simp only [update_record, if_neg hE, hA, Bool.not_false, if_true] at hr
        rw [List.any_eq_false] at hA
        exact absurd hrid (by simpa using hA r hr)
  · intro e he hm
    have hne : ¬(list_salesmen st).isEmpty := by
      rw [List.isEmpty_iff]
      intro hnil
      rw [hnil] at he
      simp at he
    unfold inferRegionForSalesman
    simp only [hne, Bool.false_eq_true, if_false]
    cases hf : (list_salesmen st).find? (fun x => pyLower x.name == pyLower (pyStrip p.salesman)) with
    | none =>
      rw [List.find?_eq_none] at hf
      exact absurd (by simpa using hm) (hf e he)
    | some e0 =>
      have he0 : e0 ∈ list_salesmen st := List.mem_of_find?_eq_some hf
      have hm0 : pyLower e0.name = pyLower (pyStrip p.salesman) := by
        simpa using List.find?_some hf
      have : e0 = e :=
        List.inj_on_of_nodup_map hnd he0 he (hm0.trans hm.symm)
      rw [this]
  · intro hall
    unfold inferRegionForSalesman
    by_cases hE : (list_salesmen st).isEmpty
    · simp [hE]
    · simp only [hE, Bool.false_eq_true, if_false]
      have hf : (list_salesmen st).find? (fun x => pyLower x.name == pyLower (pyStrip p.salesman)) = none := by
        rw [List.find?_eq_none]
        intro x hx
        simpa using hall x hx
      rw [hf]

/-- Witness store for C2: one sales entry `" Alice "` (stripped to
`"Alice"` on read) in region `"CPI Northern"`. -/
def stC2 : Store :=
  ⟨some [], some [[("Sales Person", .vStr " Alice "), ("Region", .vStr "CPI Northern")]]⟩

/-- Witness for C2: the payload salesman `"ALICE"` matches the entry
`"Alice"` case-insensitively and the inferred region is its region. -/
theorem c2_region_lookup_witness :
    inferRegionForSalesman "ALICE" stC2 = "CPI Northern" := by
  have h := (c2_region_lookup
    ⟨.vNone, "ALICE", "ACME", "PO-1", "SF-1", "SO-1", "", 500, 0, none, none, .vNone, .vNone, ""⟩
    "rid-01" ⟨2024, 5, 1⟩ stC2 (by decide)).2.2.2.1
        ⟨"Alice", "CPI Northern"⟩ (by decide) (by decide)
  rw [h]
  decide

/-! ## Claim C4 -/

/-- C4: with a truthy (given, non-empty) sales-order key, `find_record`
matches only the sales-order column — the customer-PO argument does not
influence the result; the match is case-insensitive equality of the
lowered trimmed query against the lowered (already trimmed) stored column;
the result is the first matching row in table order, and `none` (total,
never an exception) when no row matches. -/
theorem c4_find_so_precedence (so po : Option String) (st : Store)
    (hso : pyTruthyStr so = true) :
    (∀ po', find_record so po st = find_record so po' st) ∧
    ((∀ r ∈ list_records st, pyLower r.soNo ≠ pyLower (pyStrip (so.getD ""))) →
        find_record so po st = none) ∧
    (∀ rec, find_record so po st = some rec →
        pyLower rec.soNo = pyLower (pyStrip (so.getD "")) ∧
        ∃ l1 l2, list_records st = l1 ++ rec :: l2 ∧
          ∀ r ∈ l1, pyLower r.soNo ≠ pyLower (pyStrip (so.getD ""))) := by
  refine ⟨?_, ?_, ?_⟩
  · intro po'
    simp [find_record, hso]
  · intro hall
    by_cases hE : (list_records st).isEmpty
    · simp [find_record, hE]
    · simp only [find_record, if_neg hE, hso, if_true]
      rw [List.head?_eq_none_iff, List.filter_eq_nil_iff]
      intro r hr
      simpa using hall r hr
  · intro rec h
    by_cases hE : (list_records st).isEmpty
    · simp [find_record, hE] at h
    · simp only [find_record, if_neg hE, hso, if_true] at h
      obtain ⟨l1, l2, hsplit, hpred, hfail⟩ := head?_filter_first h
      refine ⟨by simpa using hpred, l1, l2, hsplit, ?_⟩
      intro r hr
      simpa using hfail r hr

/-- Witness store for C4 and C10: the first record has an empty SO number
and PO `"Y"`, the second has SO `"Z"` and PO `"X"`. -/
def stC4 : Store :=
  ⟨some [[("SO No", .vStr ""), ("Customer PO No", .vStr "Y")],
         [("SO No", .vStr "Z"), ("Customer PO No", .vStr "X")]], none⟩

/-- Witness for C4: looking up SO `"z"` finds the second record whatever
the PO argument is. -/
theorem c4_find_so_precedence_witness :
    (find_record (some "z") (some "Y") stC4).map (fun r => r.customerPoNo) = some "X" ∧
    find_record (some "z") (some "Y") stC4 = find_record (some "z") none stC4 := by
  have h := c4_find_so_precedence (some "z") (some "Y") stC4 (by decide)
  exact ⟨by decide, h.1 none⟩

/-! ## Claim C10 -/

/-- Counterexample to C10 as stated: with a whitespace-only sales-order
key `" "`, `find_record` does NOT fall through to the customer-PO key —
`" "` is truthy in Python, is trimmed to `""`, and matches the first
record whose stored SO number is empty (PO `"Y"`), whereas a `None`
sales-order key does fall through to the PO key and finds PO `"X"`. -/
theorem c10_counterexample :
    (find_record (some " ") (some "X") stC4).map (fun r => r.customerPoNo) = some "Y" ∧
    (find_record none (some "X") stC4).map (fun r => r.customerPoNo) = some "X" ∧
    find_record (some " ") (some "X") stC4 ≠ find_record none (some "X") stC4 := by
  refine ⟨by decide, by decide, by decide⟩

/-- C10 amended: `find_record` decides which key to use by Python
truthiness — `none` and `""` sales-order keys fall through to the
customer-PO key identically; a whitespace-only sales-order key is truthy
and is used as the key, matching (after trimming) exactly the records
whose stored sales-order number is empty; and when both keys are `none`
or empty strings the result is not-found regardless of table content. -/
theorem c10_truthiness_amended (so po : Option String) (st : Store) (s : String) :
    (find_record none po st = find_record (some "") po st) ∧
    ((so = none ∨ so = some "") → (po = none ∨ po = some "") →
        find_record so po st = none) ∧
    (s ≠ "" → pyStrip s = "" →
        find_record (some s) po st
          = ((list_records st).filter (fun r => pyLower r.soNo == "")).head?) := by
  refine ⟨?_, ?_, ?_⟩
  · simp [find_record, pyTruthyStr]
  · intro hso hpo
    have h1 : pyTruthyStr so = false := by
      rcases hso with rfl | rfl <;> simp [pyTruthyStr]
    have h2 : pyTruthyStr po = false := by
      rcases hpo with rfl | rfl <;> simp [pyTruthyStr]
    by_cases hE : (list_records st).isEmpty <;> simp [find_record, hE, h1, h2]
  · intro hs hstrip
    have ht : pyTruthyStr (some s) = true := by simpa [pyTruthyStr] using hs
    by_cases hE : (list_records st).isEmpty
    · rw [List.isEmpty_iff] at hE
      simp [find_record, hE]
    · simp only [find_record, if_neg hE, ht, if_true, Option.getD_some]
      rw [hstrip]
      rfl

/-- Witness for C10 amended: on the C4 store, the whitespace-only key
`" "` matches the record with the empty stored SO number, and the fully
empty query misses. -/
theorem c10_truthiness_amended_witness :
    (((list_records stC4).filter (fun r => pyLower r.soNo == "")).head?).map
        (fun r => r.customerPoNo) = some "Y" ∧
    find_record (some " ") (some "X") stC4
      = ((list_records stC4).filter (fun r => pyLower r.soNo == "")).head? ∧
    find_record (some "") none stC4 = none := by
  refine ⟨by decide, ?_, ?_⟩
  · exact (c10_truthiness_amended (some " ") (some "X") stC4 " ").2.2 (by decide) (by decide)
  · exact (c10_truthiness_amended (some "") none stC4 " ").2.1 (Or.inr rfl) (Or.inl rfl)

/-! ## Claim C9 -/

/-- A record whose invoice year is defined has a present invoice date. -/
theorem invoiceYear_isSome {r : OrderRecord} {y : Nat} (h : invoiceYear r = some y) :
    r.dateOfInvoice.isSome = true := by
  unfold invoiceYear at h
  cases hd : r.dateOfInvoice with
  | none => rw [hd] at h; simp at h
  | some d => simp

/-- Restricting to invoiced records before filtering on a given invoice
year filters nothing extra away. -/
theorem filter_invoiced_year (recs : List OrderRecord) (y : Nat) :
    (recs.filter (fun r => r.dateOfInvoice.isSome)).filter (fun r => invoiceYear r == some y)
      = recs.filter (fun r => invoiceYear r == some y) := by
  rw [List.filter_filter]
  apply List.filter_congr
  intro r _
  cases hy : invoiceYear r == some y
  · simp
  · have : r.dateOfInvoice.isSome = true := invoiceYear_isSome (by simpa using hy)
    simp [this]

/-- C9: on a non-empty Records table, the OI-by-year view carries its two
headers and exactly one row per calendar year of invoice date occurring
among the records whose invoice date is present; that row's value is the
sum of `cpi + cps` (missing values as 0) over exactly the records with
that invoice year — records with a missing invoice date contribute to no
row. -/
theorem c9_oi_by_year (st : Store) (hne : list_records st ≠ []) :
    (report_frames st).oi_by_year
        = ⟨["Year", "OI (EUR)"],
           (oiGroups (list_records st)).map (fun x => [.vNum (x.1 : ℚ), .vNum x.2])⟩ ∧
    (∀ y : Nat, ((oiGroups (list_records st)).map Prod.fst).count y
        = (if (list_records st).any (fun r => invoiceYear r == some y) then 1 else 0)) ∧
    (∀ pr ∈ oiGroups (list_records st),
        pr.2 = (((list_records st).filter (fun r => invoiceYear r == some pr.1)).map recCpiCps).sum) := by
  have hE : (list_records st).isEmpty = false := by
    cases h : (list_records st).isEmpty
    · rfl
    · exact absurd (List.isEmpty_iff.mp h) hne
  refine ⟨?_, ?_, ?_⟩
  · simp only [report_frames, hE, Bool.false_eq_true, if_false]
  · intro y
    have hkeys : (oiGroups (list_records st)).map Prod.fst
        = (((list_records st).filter (fun r => r.dateOfInvoice.isSome)).filterMap invoiceYear).dedup := by
      unfold oiGroups
      rw [List.map_map]
      exact List.map_id' _
    rw [hkeys, List.count_dedup]
    by_cases hy : y ∈ ((list_records st).filter (fun r => r.dateOfInvoice.isSome)).filterMap invoiceYear
    · rw [if_pos hy]
      obtain ⟨r, hr, hry⟩ := List.mem_filterMap.mp hy
      have hr' : r ∈ list_records st := (List.mem_filter.mp hr).1
      have : (list_records st).any (fun r => invoiceYear r == some y) = true :=
        List.any_eq_true.mpr ⟨r, hr', by simpa using hry⟩
      simp [this]
    · rw [if_neg hy]
      have : (list_records st).any (fun r => invoiceYear r == some y) = false := by
        rw [List.any_eq_false]
        intro r hr hmatch
        apply hy
        refine List.mem_filterMap.mpr ⟨r, ?_, by simpa using hmatch⟩
        refine List.mem_filter.mpr ⟨hr, invoiceYear_isSome (by simpa using hmatch)⟩
      simp [this]
  · intro pr hpr
    unfold oiGroups at hpr
    obtain ⟨y, _, hy⟩ := List.mem_map.mp hpr
    rw [← hy]
    simp only
    rw [filter_invoiced_year]

/-- Witness store for C9: one record invoiced 2024-03-05 with cpi 10 and
cps 5, one record with no invoice date. -/
def stC9 : Store :=
  ⟨some [[("Date of Invoice", .vStr "2024-03-05"), ("CPI (EUR)", .vNum 10), ("CPS (EUR)", .vNum 5)],
         [("CPI (EUR)", .vNum 100)]], none⟩

/-- Witness for C9: the OI view of `stC9` has the single row (2024, 15) —
the uninvoiced record contributes nothing. -/
theorem c9_oi_by_year_witness :
    (report_frames stC9).oi_by_year
      = ⟨["Year", "OI (EUR)"], [[.vNum 2024, .vNum 15]]⟩ := by
  have h := (c9_oi_by_year stC9 (by decide)).1
  rw [h]
  have hrecs : list_records stC9 =
      [⟨none, "", "", "", "", "", "", "", none, none, some 10, some 5, none,
        some ⟨2024, 3, 5⟩, "", "", none, none⟩,
       ⟨none, "", "", "", "", "", "", "", none, none, some 100, none, none,
        none, "", "", none, none⟩] := by decide
  rw [hrecs]
  simp only [oiGroups, invoiceYear, recCpiCps, numOr0, List.filter_cons, List.filter_nil,
    Option.isSome_some, Option.isSome_none, List.filterMap_cons, List.filterMap_nil,
    Option.map_some', Option.map_none', List.dedup_cons_of_not_mem, List.not_mem_nil,
    List.dedup_nil, List.map_cons, List.map_nil, List.sum_cons, List.sum_nil,
    Option.getD_some, Option.getD_none, if_true, if_false]
  norm_num [recCpiCps, numOr0]

/-! ## Claim C5 -/

/-- One API write to the sales-reference table. -/
inductive SalesOp where
  | up : String → String → SalesOp
  | bulk : List SalesItem → SalesOp

/-- Apply one operation to the store. -/
def applySalesOp (st : Store) : SalesOp → Store
  | .up n r => upsert_salesman n r st
  | .bulk items => bulk_set_salesmen items st

/-- Apply a sequence of operations, oldest first. -/
def applySalesOps (ops : List SalesOp) (st : Store) : Store :=
  ops.foldl applySalesOp st

/-- Case-insensitive key of a payload item (trimmed then lowered — the
write path stores the trimmed name and lookups lower it). -/
def itemKey (it : SalesItem) : String := pyLower (pyStrip it.name)

/-- Case-insensitive key of a stored (already trimmed) entry. -/
def entryKey (e : SalesEntry) : String := pyLower e.name

/-- Side condition per operation: a bulk payload holds at most one item
per case-insensitive name; upserts carry no condition. -/
def goodOp : SalesOp → Prop
  | .up _ _ => True
  | .bulk items => (items.map itemKey).Nodup

instance : DecidablePred goodOp := fun op =>
  match op with
  | .up _ _ => isTrue trivial
  | .bulk items => inferInstanceAs (Decidable ((items.map itemKey).Nodup))

/-- Region stored in a table under a key: the region of the first entry
carrying that key. -/
def lookupRegion (l : List SalesEntry) (key : String) : Option String :=
  (l.find? (fun e => entryKey e == key)).map (fun e => e.region)

/-- Effect of one write on the value stored under a key — "the last write
for that name": an upsert overwrites its own key and leaves every other
key alone; a bulk replacement installs exactly its items' (trimmed,
defaulted) regions and deletes every key it does not mention. -/
def stepVal (key : String) (cur : Option String) : SalesOp → Option String
  | .up n r => if pyLower (pyStrip n) = key then some (pyStrip r) else cur
  | .bulk items =>
    (items.find? (fun it => itemKey it == key)).map
      (fun it => pyStrip (it.region.getD "Unassigned"))

/-- Value stored under a key after a whole sequence of writes. -/
def runVal (ops : List SalesOp) (key : String) (cur : Option String) : Option String :=
  ops.foldl (fun c op => stepVal key c op) cur

/-- What a write-back does to a row: both fields re-stripped. -/
def stripEntry (e : SalesEntry) : SalesEntry := ⟨pyStrip e.name, pyStrip e.region⟩

/-- Invariant of a code-produced sales table: all fields trimmed, and at
most one entry per case-insensitive name. -/
def tableInv (l : List SalesEntry) : Prop :=
  (∀ e ∈ l, pyStrip e.name = e.name ∧ pyStrip e.region = e.region) ∧
  (l.map entryKey).Nodup

theorem stripEntry_fixed {l : List SalesEntry}
    (hnorm : ∀ e ∈ l, pyStrip e.name = e.name ∧ pyStrip e.region = e.region) :
    ∀ e ∈ l, stripEntry e = e := by
  intro e he
  obtain ⟨h1, h2⟩ := hnorm e he
  cases e
  unfold stripEntry
  simp_all

theorem list_salesmen_writeSales_entries (l : List SalesEntry) (st : Store) :
    list_salesmen (writeSales (l.map salesToRow) st) = l.map stripEntry := by
  rw [list_salesmen_writeSales]
  unfold normalizeSales
  rw [List.map_map]
  apply List.map_congr_left
  intro e _
  exact normalizeSalesRow_salesToRow e

theorem list_salesmen_upsert (n r : String) (st : Store) :
    list_salesmen (upsert_salesman n r st)
      = (upsertPure n r (list_salesmen st)).map stripEntry :=
  list_salesmen_writeSales_entries _ _

theorem list_salesmen_bulk (items : List SalesItem) (st : Store) :
    list_salesmen (bulk_set_salesmen items st)
      = (itemsToEntries items).map stripEntry :=
  list_salesmen_writeSales_entries _ _

/-- Effect of one upsert on a table satisfying the invariant: the
invariant is preserved and every key's stored region moves by `stepVal`. -/
theorem upsert_step (n r : String) (l : List SalesEntry) (hinv : tableInv l) :
    tableInv ((upsertPure n r l).map stripEntry) ∧
    ∀ key, lookupRegion ((upsertPure n r l).map stripEntry) key
      = stepVal key (lookupRegion l key) (.up n r) := by
  obtain ⟨hnorm, hnd⟩ := hinv
  by_cases hA : l.any (fun e => pyLower e.name == pyLower (pyStrip n))
  · -- hit: every matching row's region is overwritten in place
    have hM : (upsertPure n r l).map stripEntry
        = l.map (fun e =>
            if entryKey e == pyLower (pyStrip n) then ⟨e.name, pyStrip r⟩ else e) := by
      unfold upsertPure
      rw [if_pos hA, List.map_map]
      apply List.map_congr_left
      intro e he
      by_cases hm : pyLower e.name == pyLower (pyStrip n)
      · simp only [Function.comp_apply, if_pos hm, entryKey, stripEntry]
        have h1 := (hnorm e he).1
        simp [h1]
      · simp only [Function.comp_apply, if_neg hm, entryKey]
        exact stripEntry_fixed hnorm e he
    have hkeys : ∀ e : SalesEntry,
        entryKey (if entryKey e == pyLower (pyStrip n) then (⟨e.name, pyStrip r⟩ : SalesEntry) else e)
          = entryKey e := by
      intro e
      by_cases hm : entryKey e == pyLower (pyStrip n)
      · rw [if_pos hm]; rfl
      · rw [if_neg hm]
    constructor
    · constructor
      · intro e he
        rw [hM] at he
        obtain ⟨e0, he0, heq⟩ := List.mem_map.mp he
        by_cases hm : entryKey e0 == pyLower (pyStrip n)
        · rw [if_pos hm] at heq
          rw [← heq]
          exact ⟨(hnorm e0 he0).1, pyStrip_idem r⟩
        · rw [if_neg hm] at heq
          rw [← heq]
          exact hnorm e0 he0
      · rw [hM, List.map_map]
        have : (entryKey ∘ fun e =>
            if entryKey e == pyLower (pyStrip n) then (⟨e.name, pyStrip r⟩ : SalesEntry) else e)
              = entryKey := funext fun e => hkeys e
        rw [this]
        exact hnd
    · intro key
      rw [hM]
      simp only [lookupRegion, stepVal]
      rw [List.find?_map]
      have hpred : ((fun e => entryKey e == key) ∘ fun e =>
          if entryKey e == pyLower (pyStrip n) then (⟨e.name, pyStrip r⟩ : SalesEntry) else e)
            = (fun e => entryKey e == key) := by
        funext e
        simp only [Function.comp_apply, hkeys e]
      rw [hpred]
      by_cases hk : pyLower (pyStrip n) = key
      · rw [if_pos hk]
        obtain ⟨e0, he0, hm0⟩ := List.any_eq_true.mp hA
        cases hf : l.find? (fun e => entryKey e == key) with
        | none =>
          rw [List.find?_eq_none] at hf
          exact absurd (by simpa [entryKey, hk] using hm0) (hf e0 he0)
        | some e1 =>
          have hm1 : (entryKey e1 == key) = true := by simpa using List.find?_some hf
          simp only [Option.map_some']
          rw [if_pos (by rw [hk]; exact hm1)]
      · rw [if_neg hk]
        cases hf : l.find? (fun e => entryKey e == key) with
        | none => simp
        | some e1 =>
          have hm1 : (entryKey e1 == key) = true := by simpa using List.find?_some hf
          have : (entryKey e1 == pyLower (pyStrip n)) = false := by
            rw [Bool.eq_false_iff]
            intro hcon
            exact hk ((eq_of_beq hcon).symm.trans (eq_of_beq hm1))
          simp only [Option.map_some']
          rw [if_neg (by simp [this])]
  · -- miss: a fresh stripped row is appended
    have hM : (upsertPure n r l).map stripEntry
        = l ++ [⟨pyStrip n, pyStrip r⟩] := by
      unfold upsertPure
      rw [if_neg hA, List.map_append]
      congr 1
      · rw [List.map_congr_left (stripEntry_fixed hnorm), List.map_id']
      · simp [stripEntry, pyStrip_idem]
    simp only [Bool.not_eq_true] at hA
    rw [List.any_eq_false] at hA
    constructor
    · constructor
      · intro e he
        rw [hM] at he
        rcases List.mem_append.mp he with h | h
        · exact hnorm e h
        · have : e = ⟨pyStrip n, pyStrip r⟩ := by simpa using h
          rw [this]
          exact ⟨pyStrip_idem n, pyStrip_idem r⟩
      · rw [hM, List.map_append]
        rw [List.nodup_append]
        refine ⟨hnd, by simp, ?_⟩
        intro a ha hb
        obtain ⟨e0, he0, he0k⟩ := List.mem_map.mp ha
        have hb' : a = pyLower (pyStrip n) := by simpa [entryKey] using hb
        apply hA e0 he0
        have hname : pyLower e0.name = pyLower (pyStrip n) := by
          simp only [entryKey] at he0k
          rw [he0k, hb']
        simp [hname]
    · intro key
      rw [hM]
      simp only [lookupRegion, stepVal]
      rw [List.find?_append]
      by_cases hk : pyLower (pyStrip n) = key
      · have hnone : l.find? (fun e => entryKey e == key) = none := by
          rw [List.find?_eq_none]
          intro e he
          rw [← hk]
          simpa [entryKey] using hA e he
        rw [hnone, if_pos hk]
        simp [entryKey, pyStrip_idem, hk]
      · have hsingle : ([(⟨pyStrip n, pyStrip r⟩ : SalesEntry)].find?
            (fun e => entryKey e == key)) = none := by
          simp only [List.find?_singleton]
          rw [if_neg]
          simp [entryKey, pyStrip_idem]
          exact hk
        rw [hsingle, if_neg hk]
        cases hf : l.find? (fun e => entryKey e == key) <;> simp

/-- Effect of one (duplicate-free) bulk replacement: the invariant holds
of the fresh table and every key's stored region is exactly the item
value (whatever was stored before). -/
theorem bulk_step (items : List SalesItem) (hgood : (items.map itemKey).Nodup) :
    tableInv ((itemsToEntries items).map stripEntry) ∧
    ∀ key cur, lookupRegion ((itemsToEntries items).map stripEntry) key
      = stepVal key cur (.bulk items) := by
  have hM : (itemsToEntries items).map stripEntry
      = items.map (fun it =>
          (⟨pyStrip it.name, pyStrip (it.region.getD "Unassigned")⟩ : SalesEntry)) := by
    unfold itemsToEntries
    rw [List.map_map]
    rfl
  constructor
  · constructor
    · intro e he
      rw [hM] at he
      obtain ⟨it, _, heq⟩ := List.mem_map.mp he
      rw [← heq]
      exact ⟨pyStrip_idem _, pyStrip_idem _⟩
    · rw [hM, List.map_map]
      have : (entryKey ∘ fun it =>
          (⟨pyStrip it.name, pyStrip (it.region.getD "Unassigned")⟩ : SalesEntry)) = itemKey :=
        funext fun it => rfl
      rw [this]
      exact hgood
  · intro key cur
    rw [hM]
    simp only [lookupRegion, stepVal]
    rw [List.find?_map]
    have hpred : ((fun e => entryKey e == key) ∘ fun it =>
        (⟨pyStrip it.name, pyStrip (it.region.getD "Unassigned")⟩ : SalesEntry))
          = (fun it => itemKey it == key) := funext fun it => rfl
    rw [hpred]
    cases hf : items.find? (fun it => itemKey it == key) <;> simp

/-- Trace lemma: starting from any table satisfying the invariant, a
sequence of good operations preserves the invariant and drives every
key's stored region to `runVal` of the trace. -/
theorem sales_trace (ops : List SalesOp) :
    ∀ st : Store, (∀ op ∈ ops, goodOp op) → tableInv (list_salesmen st) →
    tableInv (list_salesmen (applySalesOps ops st)) ∧
    ∀ key, lookupRegion (list_salesmen (applySalesOps ops st)) key
      = runVal ops key (lookupRegion (list_salesmen st) key) := by
  induction ops with
  | nil => exact fun st _ hinv => ⟨hinv, fun key => rfl⟩
  | cons op ops ih =>
    intro st hops hinv
    have hopgood : goodOp op := hops op (List.mem_cons_self op ops)
    have hrest : ∀ o ∈ ops, goodOp o := fun o ho => hops o (List.mem_cons_of_mem op ho)
    have hstep : tableInv (list_salesmen (applySalesOp st op)) ∧
        ∀ key, lookupRegion (list_salesmen (applySalesOp st op)) key
          = stepVal key (lookupRegion (list_salesmen st) key) op := by
      cases op with
      | up n r =>
        have h := upsert_step n r (list_salesmen st) hinv
        exact ⟨by rw [applySalesOp, list_salesmen_upsert]; exact h.1,
               fun key => by rw [applySalesOp, list_salesmen_upsert]; exact h.2 key⟩
      | bulk items =>
        have h := bulk_step items hopgood
        exact ⟨by rw [applySalesOp, list_salesmen_bulk]; exact h.1,
               fun key => by rw [applySalesOp, list_salesmen_bulk]; exact h.2 key _⟩
    obtain ⟨h1, h2⟩ := ih (applySalesOp st op) hrest hstep.1
    refine ⟨h1, fun key => ?_⟩
    show lookupRegion (list_salesmen (applySalesOps ops (applySalesOp st op))) key
      = runVal ops key (stepVal key (lookupRegion (list_salesmen st) key) op)
    rw [h2 key, hstep.2 key]

/-- Counterexample to C5 as stated: a single bulk replacement whose
payload repeats a name in different cases yields a table with two entries
under the same case-insensitive name. -/
theorem c5_counterexample :
    list_salesmen (bulk_set_salesmen
        [⟨"Alice", some "CPI Northern"⟩, ⟨"ALICE", some "CPI Southern"⟩] ⟨some [], some []⟩)
      = [⟨"Alice", "CPI Northern"⟩, ⟨"ALICE", "CPI Southern"⟩] ∧
    ¬ ((list_salesmen (bulk_set_salesmen
        [⟨"Alice", some "CPI Northern"⟩, ⟨"ALICE", some "CPI Southern"⟩]
        ⟨some [], some []⟩)).map entryKey).Nodup := by
  constructor <;> decide

/-- C5 amended: for every sequence of upserts and bulk replacements
starting from the empty table, in which each bulk payload holds at most
one item per case-insensitive name, the resulting table holds at most one
entry per case-insensitive name, all fields trimmed, and the region
stored under each key is the trimmed region of the last write for that
key (a bulk replacement not mentioning a key deletes it). -/
theorem c5_last_write_per_name (ops : List SalesOp) (hops : ∀ op ∈ ops, goodOp op) :
    ((list_salesmen (applySalesOps ops ⟨some [], some []⟩)).map entryKey).Nodup ∧
    (∀ e ∈ list_salesmen (applySalesOps ops ⟨some [], some []⟩),
        pyStrip e.name = e.name ∧ pyStrip e.region = e.region) ∧
    ∀ key, lookupRegion (list_salesmen (applySalesOps ops ⟨some [], some []⟩)) key
      = runVal ops key none := by
  have hbase : tableInv (list_salesmen (⟨some [], some []⟩ : Store)) := by
    constructor
    · intro e he
      simp [list_salesmen, readSalesSheet, normalizeSales] at he
    · simp [list_salesmen, readSalesSheet, normalizeSales]
  obtain ⟨⟨hnorm, hnd⟩, hl⟩ := sales_trace ops ⟨some [], some []⟩ hops hbase
  exact ⟨hnd, hnorm, fun key => hl key⟩

/-- Witness trace for C5: upsert `" Alice "`, bulk-replace with `"Bob"`
(deleting Alice), then upsert `"BOB"` with an untrimmed region. -/
def opsC5 : List SalesOp :=
  [.up " Alice " "CPI Northern",
   .bulk [⟨"Bob", some "CPI Southern"⟩],
   .up "BOB" " CPI Northern "]

/-- Witness for C5 amended: after the trace, key `"bob"` stores the
trimmed region of its last write and key `"alice"` is gone. -/
theorem c5_last_write_per_name_witness :
    lookupRegion (list_salesmen (applySalesOps opsC5 ⟨some [], some []⟩)) "bob"
        = some "CPI Northern" ∧
    lookupRegion (list_salesmen (applySalesOps opsC5 ⟨some [], some []⟩)) "alice" = none := by
  have h := c5_last_write_per_name opsC5 (by decide)
  refine ⟨?_, ?_⟩
  · rw [h.2.2 "bob"]
    decide
  · rw [h.2.2 "alice"]
    decide

end OrderTrack
